import Mathlib

/-!
Verification of the Mergington High School activity-signup service
(`src/app.py`): a shallow embedding of its two-table data model
(Activity, Participant), the seeding routine, and the three HTTP
operations (list, signup, unregister), followed by theorems settling
the specification's claims about them.
-/

namespace Mergington

/-- Row of the Activity table (`models.Activity`): storage-assigned id,
unique name, free-text description and schedule, and a capacity. -/
structure Activity where
  id : Nat
  name : String
  description : String
  schedule : String
  max_participants : Nat
deriving DecidableEq

/-- Row of the Participant table (`models.Participant`): storage-assigned id,
student email, and a reference to the owning Activity. -/
structure Participant where
  id : Nat
  email : String
  activity_id : Nat
deriving DecidableEq

/-- The persistent state: the two tables, as ordered lists of rows
(SQLite returns rows of these append-only/erase-only tables in
insertion order). -/
structure DB where
  activities : List Activity
  participants : List Participant
deriving DecidableEq

/-- An HTTP error raised by a handler (FastAPI `HTTPException`). -/
structure HTTPException where
  status_code : Nat
  detail : String
deriving DecidableEq

/-- The result of `select(Activity).where(Activity.name == activity_name)).first()`:
the first Activity row whose name equals the given one. -/
def DB.findActivity (db : DB) (activity_name : String) : Option Activity :=
  db.activities.find? (fun a => a.name == activity_name)

/-- The result of `select(Participant).where(Participant.activity_id == aid)).all()`:
all Participant rows of one activity, in row order. -/
def DB.activityParticipants (db : DB) (aid : Nat) : List Participant :=
  db.participants.filter (fun p => p.activity_id == aid)

/-- The id SQLite assigns to a freshly inserted Participant row:
one more than the largest id in the table. -/
def freshParticipantId (db : DB) : Nat :=
  (db.participants.map Participant.id).foldr max 0 + 1

/-- The id SQLite assigns to a freshly inserted Activity row. -/
def freshActivityId (db : DB) : Nat :=
  (db.activities.map Activity.id).foldr max 0 + 1

/-- Handler `signup_for_activity` (POST /activities/.../signup): look up the
activity by name (404 if absent), reject a duplicate email (400), reject a
full roster (400), otherwise insert one Participant row and return the
confirmation message.  The returned `DB` is the state after the request. -/
def signup_for_activity (db : DB) (activity_name email : String) :
    DB × Except HTTPException String :=
  match db.findActivity activity_name with
  | none => (db, .error ⟨404, "Activity not found"⟩)
  | some activity =>
    let participants := db.activityParticipants activity.id
    if participants.any (fun p => p.email == email) then
      (db, .error ⟨400, "Student is already signed up"⟩)
    else if participants.length ≥ activity.max_participants then
      (db, .error ⟨400, "Activity is full"⟩)
    else
      ({ db with participants :=
          db.participants ++ [⟨freshParticipantId db, email, activity.id⟩] },
       .ok ("Signed up " ++ email ++ " for " ++ activity_name))

/-- Handler `unregister_from_activity` (DELETE /activities/.../unregister):
look up the activity by name (404 if absent), look up the first Participant
row matching (activity id, email) (400 if absent), otherwise delete exactly
that row and return the confirmation message. -/
def unregister_from_activity (db : DB) (activity_name email : String) :
    DB × Except HTTPException String :=
  match db.findActivity activity_name with
  | none => (db, .error ⟨404, "Activity not found"⟩)
  | some activity =>
    let isTarget := fun p => p.activity_id == activity.id && p.email == email
    match db.participants.find? isTarget with
    | none => (db, .error ⟨400, "Student is not signed up for this activity"⟩)
    | some _ =>
      ({ db with participants := db.participants.eraseP isTarget },
       .ok ("Unregistered " ++ email ++ " from " ++ activity_name))

/-- The value the listing maps an activity name to: description, schedule,
capacity, and the ordered list of participant emails. -/
structure ActivityInfo where
  description : String
  schedule : String
  max_participants : Nat
  participants : List String
deriving DecidableEq

/-- The listing entry built for one Activity row by `get_activities`. -/
def DB.actInfo (db : DB) (a : Activity) : ActivityInfo :=
  ⟨a.description, a.schedule, a.max_participants,
    (db.activityParticipants a.id).map Participant.email⟩

/-- Insertion of a key/value pair into a Python dict rendered as an
association list: replace the value in place if the key is present,
append otherwise. -/
def dictInsert (d : List (String × ActivityInfo)) (k : String) (v : ActivityInfo) :
    List (String × ActivityInfo) :=
  if d.any (fun kv => kv.1 == k) then
    d.map (fun kv => if kv.1 == k then (k, v) else kv)
  else d ++ [(k, v)]

/-- Handler `get_activities` (GET /activities): scan the Activity table and
build the name-to-info dict, one entry per name. -/
def get_activities (db : DB) : List (String × ActivityInfo) :=
  db.activities.foldl (fun res act => dictInsert res act.name (db.actInfo act)) []

/-- The nine sample activities of `seed_data`, verbatim:
(name, description, schedule, max_participants, initial participant emails). -/
def samples : List (String × String × String × Nat × List String) :=
  [("Chess Club", "Learn strategies and compete in chess tournaments",
    "Fridays, 3:30 PM - 5:00 PM", 12,
    ["michael@mergington.edu", "daniel@mergington.edu"]),
   ("Programming Class", "Learn programming fundamentals and build software projects",
    "Tuesdays and Thursdays, 3:30 PM - 4:30 PM", 20,
    ["emma@mergington.edu", "sophia@mergington.edu"]),
   ("Gym Class", "Physical education and sports activities",
    "Mondays, Wednesdays, Fridays, 2:00 PM - 3:00 PM", 30,
    ["john@mergington.edu", "olivia@mergington.edu"]),
   ("Soccer Team", "Join the school soccer team and compete in matches",
    "Tuesdays and Thursdays, 4:00 PM - 5:30 PM", 22,
    ["liam@mergington.edu", "noah@mergington.edu"]),
   ("Basketball Team", "Practice and play basketball with the school team",
    "Wednesdays and Fridays, 3:30 PM - 5:00 PM", 15,
    ["ava@mergington.edu", "mia@mergington.edu"]),
   ("Art Club", "Explore your creativity through painting and drawing",
    "Thursdays, 3:30 PM - 5:00 PM", 15,
    ["amelia@mergington.edu", "harper@mergington.edu"]),
   ("Drama Club", "Act, direct, and produce plays and performances",
    "Mondays and Wednesdays, 4:00 PM - 5:30 PM", 20,
    ["ella@mergington.edu", "scarlett@mergington.edu"]),
   ("Math Club", "Solve challenging problems and participate in math competitions",
    "Tuesdays, 3:30 PM - 4:30 PM", 10,
    ["james@mergington.edu", "benjamin@mergington.edu"]),
   ("Debate Team", "Develop public speaking and argumentation skills",
    "Fridays, 4:00 PM - 5:30 PM", 12,
    ["charlotte@mergington.edu", "henry@mergington.edu"])]

/-- One iteration of the seeding loop: insert the Activity row (committing
assigns its id), then insert its initial Participant rows. -/
def seedOne (db : DB) (s : String × String × String × Nat × List String) : DB :=
  let aid := freshActivityId db
  let db1 : DB :=
    { db with activities := db.activities ++ [⟨aid, s.1, s.2.1, s.2.2.1, s.2.2.2.1⟩] }
  s.2.2.2.2.foldl
    (fun d email =>
      { d with participants := d.participants ++ [⟨freshParticipantId d, email, aid⟩] })
    db1

/-- Startup routine `seed_data`: if the Activity table holds any row,
return unchanged; otherwise insert the nine sample activities with their
initial participants. -/
def seed_data (db : DB) : DB :=
  if db.activities.isEmpty then samples.foldl seedOne db else db

/-- The state of a fresh deployment after startup seeding. -/
def initDB : DB := seed_data ⟨[], []⟩

/-- States reachable from the seeded initial state by any sequence of the
three API operations.  Listing has no side effect, so only the two
mutating handlers appear. -/
inductive Reachable : DB → Prop where
  | seeded : Reachable initDB
  | signup (db : DB) (n e : String) :
      Reachable db → Reachable (signup_for_activity db n e).1
  | unregister (db : DB) (n e : String) :
      Reachable db → Reachable (unregister_from_activity db n e).1

/-! ### General list lemmas used by the handler proofs -/

lemma mem_eraseP_of_pred_false {α : Type _} {p : α → Bool} {l : List α} {x : α}
    (hx : x ∈ l) (hpx : p x = false) : x ∈ l.eraseP p := by
  induction l with
  | nil => cases hx
  | cons a l ih =>
    by_cases hpa : p a = true
    · rw [List.eraseP_cons_of_pos hpa]
      rcases List.mem_cons.1 hx with rfl | hx'
      · simp [hpx] at hpa
      · exact hx'
    · rw [List.eraseP_cons_of_neg hpa]
      rcases List.mem_cons.1 hx with rfl | hx'
      · exact List.mem_cons_self _ _
      · exact List.mem_cons_of_mem _ (ih hx')

lemma countP_eraseP_of_imp {α : Type _} (p q : α → Bool) (l : List α)
    (himp : ∀ x, q x = true → p x = true) (hex : ∃ x ∈ l, q x = true) :
    (l.eraseP q).countP p + 1 = l.countP p := by
  induction l with
  | nil => rcases hex with ⟨x, hx, _⟩; cases hx
  | cons a l ih =>
    by_cases hqa : q a = true
    · rw [List.eraseP_cons_of_pos hqa, List.countP_cons, if_pos (himp a hqa)]
    · rw [List.eraseP_cons_of_neg hqa, List.countP_cons, List.countP_cons]
      have hex' : ∃ x ∈ l, q x = true := by
        rcases hex with ⟨x, hx, hqx⟩
        rcases List.mem_cons.1 hx with rfl | hx'
        · exact absurd hqx hqa
        · exact ⟨x, hx', hqx⟩
      have := ih hex'
      omega

lemma filter_eraseP_of_disjoint {α : Type _} (p q : α → Bool) (l : List α)
    (h : ∀ x, q x = true → p x = false) :
    (l.eraseP q).filter p = l.filter p := by
  induction l with
  | nil => rfl
  | cons a l ih =>
    by_cases hqa : q a = true
    · rw [List.eraseP_cons_of_pos hqa, List.filter_cons, h a hqa]
      simp
    · rw [List.eraseP_cons_of_neg hqa, List.filter_cons, List.filter_cons, ih]

/-! ### Shape lemmas for the two mutating handlers -/

lemma signup_fst_activities (db : DB) (n e : String) :
    (signup_for_activity db n e).1.activities = db.activities := by
  rcases hfa : db.findActivity n with _ | a
  · simp [signup_for_activity, hfa]
  · simp only [signup_for_activity, hfa]
    split
    · rfl
    · split
      · rfl
      · rfl

lemma unregister_fst_activities (db : DB) (n e : String) :
    (unregister_from_activity db n e).1.activities = db.activities := by
  rcases hfa : db.findActivity n with _ | a
  · simp [unregister_from_activity, hfa]
  · simp only [unregister_from_activity, hfa]
    split
    · rfl
    · rfl

lemma signup_shape (db : DB) (n e : String) :
    (signup_for_activity db n e).1 = db ∨
    ∃ a : Activity, db.findActivity n = some a ∧
      (db.activityParticipants a.id).any (fun p => p.email == e) = false ∧
      (db.activityParticipants a.id).length < a.max_participants ∧
      (signup_for_activity db n e).1
        = { db with participants :=
            db.participants ++ [⟨freshParticipantId db, e, a.id⟩] } := by
  rcases hfa : db.findActivity n with _ | a
  · left; simp [signup_for_activity, hfa]
  · simp only [signup_for_activity, hfa]
    split
    · left; rfl
    · rename_i hdup
      split
      · left; rfl
      · rename_i hlen
        right
        refine ⟨a, rfl, ?_, ?_, rfl⟩
        · simpa using hdup
        · omega

lemma unregister_shape (db : DB) (n e : String) :
    (unregister_from_activity db n e).1 = db ∨
    ∃ a : Activity, db.findActivity n = some a ∧
      (unregister_from_activity db n e).1
        = { db with participants := db.participants.eraseP (fun p => p.activity_id == a.id && p.email == e) } := by
  rcases hfa : db.findActivity n with _ | a
  · left; simp [unregister_from_activity, hfa]
  · simp only [unregister_from_activity, hfa]
    split
    · left; rfl
    · right; exact ⟨a, rfl, rfl⟩

/-! ### The listing as an association list, under unique names -/

lemma foldl_dictInsert (g : Activity → ActivityInfo) (acts : List Activity) :
    ∀ d : List (String × ActivityInfo),
      (∀ x ∈ acts, ∀ kv ∈ d, kv.1 ≠ x.name) →
      (acts.map Activity.name).Nodup →
      acts.foldl (fun res act => dictInsert res act.name (g act)) d
        = d ++ acts.map (fun x => (x.name, g x)) := by
  induction acts with
  | nil => intro d _ _; simp
  | cons a rest ih =>
    intro d hdisj hnodup
    have hany : d.any (fun kv => kv.1 == a.name) = false := by
      simp only [List.any_eq_false]
      intro kv hkv
      simpa using hdisj a (List.mem_cons_self _ _) kv hkv
    rw [List.foldl_cons]
    have hstep : dictInsert d a.name (g a) = d ++ [(a.name, g a)] := by
      simp [dictInsert, hany]
    rw [hstep, ih (d ++ [(a.name, g a)]) ?_ ?_]
    · simp
    · intro x hx kv hkv
      rcases List.mem_append.1 hkv with hkv' | hkv'
      · exact hdisj x (List.mem_cons_of_mem _ hx) kv hkv'
      · have hkv2 : kv = (a.name, g a) := by simpa using hkv'
        subst hkv2
        simp only [List.map_cons, List.nodup_cons] at hnodup
        intro hcon
        exact hnodup.1
          (by rw [show a.name = x.name from hcon]
              exact List.mem_map_of_mem Activity.name hx)
    · simp only [List.map_cons, List.nodup_cons] at hnodup
      exact hnodup.2

lemma get_activities_eq_map (db : DB)
    (h : (db.activities.map Activity.name).Nodup) :
    get_activities db = db.activities.map (fun x => (x.name, db.actInfo x)) := by
  have := foldl_dictInsert (db.actInfo) db.activities []
    (by intro x _ kv hkv; cases hkv) h
  simpa [get_activities] using this

lemma lookup_map_eq_find? (g : Activity → ActivityInfo) (l : List Activity)
    (n : String) :
    (l.map (fun x => (x.name, g x))).lookup n
      = (l.find? (fun x => x.name == n)).map g := by
  induction l with
  | nil => rfl
  | cons a l ih =>
    by_cases h : a.name = n
    · subst h
      simp [List.lookup, List.find?]
    · have h1 : (n == a.name) = false := by simp [Ne.symm h]
      have h2 : (a.name == n) = false := by simp [h]
      simp [List.lookup, List.find?, h1, h2, ih]

lemma any_email_eq_false {l : List Participant} {e : String}
    (he : e ∉ l.map Participant.email) :
    (l.any (fun p => p.email == e)) = false := by
  simp only [List.any_eq_false]
  intro p hp
  simp only [beq_iff_eq]
  intro hcon
  exact he (by rw [← hcon]; exact List.mem_map_of_mem Participant.email hp)

lemma any_email_eq_true {l : List Participant} {e : String}
    (he : e ∈ l.map Participant.email) :
    (l.any (fun p => p.email == e)) = true := by
  simp only [List.any_eq_true]
  rcases List.mem_map.1 he with ⟨p, hp, hpe⟩
  exact ⟨p, hp, by simp [hpe]⟩

lemma lookup_get_activities (db : DB) (n : String) (a : Activity)
    (hnames : (db.activities.map Activity.name).Nodup)
    (ha : db.findActivity n = some a) :
    (get_activities db).lookup n = some (db.actInfo a) := by
  rw [get_activities_eq_map db hnames, lookup_map_eq_find?]
  rw [show List.find? (fun x => x.name == n) db.activities = some a from ha]
  rfl

/-! ### The claims -/

/-- C1: if an Activity named `n` exists (names being unique per the data
model), `e` is not among its participants, and the roster is strictly below
capacity, then signup succeeds: it appends exactly one Participant row with
that email for that activity (the roster grows by one), returns only the
confirmation message, and the subsequent listing shows `e` among `n`'s
participants. -/
theorem claim_C1 (db : DB) (n e : String) (a : Activity)
    (hnames : (db.activities.map Activity.name).Nodup)
    (ha : db.findActivity n = some a)
    (he : e ∉ (db.activityParticipants a.id).map Participant.email)
    (hcap : (db.activityParticipants a.id).length < a.max_participants) :
    ∃ db' : DB,
      signup_for_activity db n e
        = (db', Except.ok ("Signed up " ++ e ++ " for " ++ n)) ∧
      db'.participants = db.participants ++ [⟨freshParticipantId db, e, a.id⟩] ∧
      (db'.activityParticipants a.id).length
        = (db.activityParticipants a.id).length + 1 ∧
      ∃ info : ActivityInfo,
        (get_activities db').lookup n = some info ∧ e ∈ info.participants := by
  have hany := any_email_eq_false he
  have hlen : ¬ (db.activityParticipants a.id).length ≥ a.max_participants := by
    omega
  refine ⟨{ db with participants := db.participants ++ [⟨freshParticipantId db, e, a.id⟩] },
    ?_, rfl, ?_, ?_⟩
  · simp only [signup_for_activity, ha, hany]
    simp [hlen]
  · simp [DB.activityParticipants, List.filter_append]
  · refine ⟨_, lookup_get_activities _ n a hnames ha, ?_⟩
    simp [DB.actInfo, DB.activityParticipants, List.filter_append]

/-- C2: signing up an email already on the activity's roster fails with
HTTP 400 and leaves the state unchanged; in particular a second signup with
the same name and email after a successful one fails that way and leaves
the state as the first call left it. -/
theorem claim_C2 :
    (∀ (db : DB) (n e : String) (a : Activity),
        db.findActivity n = some a →
        e ∈ (db.activityParticipants a.id).map Participant.email →
        signup_for_activity db n e
          = (db, Except.error ⟨400, "Student is already signed up"⟩)) ∧
    (∀ (db db₁ : DB) (n e m : String),
        signup_for_activity db n e = (db₁, Except.ok m) →
        signup_for_activity db₁ n e
          = (db₁, Except.error ⟨400, "Student is already signed up"⟩)) := by
  have main : ∀ (db : DB) (n e : String) (a : Activity),
      db.findActivity n = some a →
      (db.activityParticipants a.id).any (fun p => p.email == e) = true →
      signup_for_activity db n e
        = (db, Except.error ⟨400, "Student is already signed up"⟩) := by
    intro db n e a ha hany
    simp [signup_for_activity, ha, hany]
  constructor
  · intro db n e a ha he
    exact main db n e a ha (any_email_eq_true he)
  · intro db db₁ n e m h
    rcases hfa : db.findActivity n with _ | a
    · simp [signup_for_activity, hfa] at h
    · simp only [signup_for_activity, hfa] at h
      split at h
      · simp at h
      · split at h
        · simp at h
        · simp only [Prod.mk.injEq] at h
          obtain ⟨hdb, -⟩ := h
          subst hdb
          refine main _ n e a hfa ?_
          simp [DB.activityParticipants, List.filter_append]

/-- C3: signing up a fresh email when the roster already holds exactly
`max_participants` rows fails with HTTP 400 ("Activity is full") and the
returned state is the input state. -/
theorem claim_C3 (db : DB) (n e : String) (a : Activity)
    (ha : db.findActivity n = some a)
    (he : e ∉ (db.activityParticipants a.id).map Participant.email)
    (hfull : (db.activityParticipants a.id).length = a.max_participants) :
    signup_for_activity db n e = (db, Except.error ⟨400, "Activity is full"⟩) := by
  have hany := any_email_eq_false he
  have hge : (db.activityParticipants a.id).length ≥ a.max_participants :=
    le_of_eq hfull.symm
  simp [signup_for_activity, ha, hany, hge]

/-- C4: when an Activity named `n` exists and exactly one Participant row
matches (that activity, `e`), unregister succeeds with the confirmation
message, removes exactly that row (the roster shrinks by one, no matching
row remains), and keeps every non-matching Participant row and the whole
Activity table. -/
theorem claim_C4 (db : DB) (n e : String) (a : Activity)
    (ha : db.findActivity n = some a)
    (hone : db.participants.countP (fun p => p.activity_id == a.id && p.email == e) = 1) :
    ∃ db' : DB,
      unregister_from_activity db n e
        = (db', Except.ok ("Unregistered " ++ e ++ " from " ++ n)) ∧
      db'.activities = db.activities ∧
      db'.participants
        = db.participants.eraseP (fun p => p.activity_id == a.id && p.email == e) ∧
      (db'.activityParticipants a.id).length + 1
        = (db.activityParticipants a.id).length ∧
      db'.participants.countP (fun p => p.activity_id == a.id && p.email == e) = 0 ∧
      ∀ p ∈ db.participants,
        (p.activity_id == a.id && p.email == e) = false → p ∈ db'.participants := by
  have hex : ∃ x ∈ db.participants, (x.activity_id == a.id && x.email == e) = true := by
    rw [← List.countP_pos_iff]
    omega
  have hfind :
      (db.participants.find? (fun p => p.activity_id == a.id && p.email == e)).isSome
        = true :=
    List.find?_isSome.2 hex
  rcases hfp : db.participants.find? (fun p => p.activity_id == a.id && p.email == e)
    with _ | r
  · rw [hfp] at hfind; cases hfind
  refine ⟨{ db with participants :=
      db.participants.eraseP (fun p => p.activity_id == a.id && p.email == e) },
    ?_, rfl, rfl, ?_, ?_, ?_⟩
  · simp [unregister_from_activity, ha, hfp]
  · simp only [DB.activityParticipants]
    rw [← List.countP_eq_length_filter, ← List.countP_eq_length_filter]
    exact countP_eraseP_of_imp _ _ _
      (fun x hx => by rw [Bool.and_eq_true] at hx; exact hx.1) hex
  · show (db.participants.eraseP (fun p => p.activity_id == a.id && p.email == e)).countP
        (fun p => p.activity_id == a.id && p.email == e) = 0
    have := countP_eraseP_of_imp
      (fun p => p.activity_id == a.id && p.email == e)
      (fun p => p.activity_id == a.id && p.email == e)
      db.participants (fun x hx => hx) hex
    omega
  · intro p hp hfalse
    exact mem_eraseP_of_pred_false hp hfalse

/-- C5: when an Activity named `n` exists but no Participant row matches
(that activity, `e`), unregister fails with HTTP 400 and the returned state
is the input state. -/
theorem claim_C5 (db : DB) (n e : String) (a : Activity)
    (ha : db.findActivity n = some a)
    (hno : ∀ p ∈ db.participants, ¬(p.activity_id = a.id ∧ p.email = e)) :
    unregister_from_activity db n e
      = (db, Except.error ⟨400, "Student is not signed up for this activity"⟩) := by
  have hfind :
      db.participants.find? (fun p => p.activity_id == a.id && p.email == e) = none := by
    rw [List.find?_eq_none]
    intro x hx h
    rw [Bool.and_eq_true, beq_iff_eq, beq_iff_eq] at h
    exact hno x hx h
  simp [unregister_from_activity, ha, hfind]

/-- C6: when no Activity row is named `n`, both signup and unregister fail
with HTTP 404 ("Activity not found") for every email, and the returned
state is the input state. -/
theorem claim_C6 (db : DB) (n e : String)
    (h : ∀ a ∈ db.activities, a.name ≠ n) :
    signup_for_activity db n e = (db, Except.error ⟨404, "Activity not found"⟩) ∧
    unregister_from_activity db n e
      = (db, Except.error ⟨404, "Activity not found"⟩) := by
  have hfa : db.findActivity n = none := by
    simp only [DB.findActivity]
    rw [List.find?_eq_none]
    intro x hx
    simp [h x hx]
  constructor
  · simp [signup_for_activity, hfa]
  · simp [unregister_from_activity, hfa]

/-- Witness for C1: a fresh email signing up for "Chess Club" in the seeded
state. -/
theorem claim_C1_witness :
    ∃ db' : DB,
      signup_for_activity initDB "Chess Club" "zoe@mergington.edu"
        = (db', Except.ok ("Signed up " ++ "zoe@mergington.edu" ++ " for " ++ "Chess Club")) ∧
      db'.participants = initDB.participants
        ++ [⟨freshParticipantId initDB, "zoe@mergington.edu", 1⟩] ∧
      (db'.activityParticipants 1).length
        = (initDB.activityParticipants 1).length + 1 ∧
      ∃ info : ActivityInfo,
        (get_activities db').lookup "Chess Club" = some info ∧
          "zoe@mergington.edu" ∈ info.participants :=
  claim_C1 initDB "Chess Club" "zoe@mergington.edu"
    ⟨1, "Chess Club", "Learn strategies and compete in chess tournaments",
      "Fridays, 3:30 PM - 5:00 PM", 12⟩
    (by decide) (by decide) (by decide) (by decide)

/-- Witness for C2: a seeded member of "Chess Club" signing up again. -/
theorem claim_C2_witness :
    signup_for_activity initDB "Chess Club" "michael@mergington.edu"
      = (initDB, Except.error ⟨400, "Student is already signed up"⟩) :=
  claim_C2.1 initDB "Chess Club" "michael@mergington.edu"
    ⟨1, "Chess Club", "Learn strategies and compete in chess tournaments",
      "Fridays, 3:30 PM - 5:00 PM", 12⟩
    (by decide) (by decide)

/-- Witness for C3: signup against a one-activity state whose roster already
holds `max_participants` rows. -/
theorem claim_C3_witness :
    signup_for_activity
        ⟨[⟨1, "Art Club", "d", "s", 2⟩],
         [⟨1, "x@mergington.edu", 1⟩, ⟨2, "y@mergington.edu", 1⟩]⟩
        "Art Club" "z@mergington.edu"
      = (⟨[⟨1, "Art Club", "d", "s", 2⟩],
          [⟨1, "x@mergington.edu", 1⟩, ⟨2, "y@mergington.edu", 1⟩]⟩,
         Except.error ⟨400, "Activity is full"⟩) :=
  claim_C3 _ _ _ ⟨1, "Art Club", "d", "s", 2⟩ (by decide) (by decide) (by decide)

/-- Witness for C4: unregistering a seeded member of "Chess Club". -/
theorem claim_C4_witness :
    ∃ db' : DB,
      unregister_from_activity initDB "Chess Club" "michael@mergington.edu"
        = (db', Except.ok
            ("Unregistered " ++ "michael@mergington.edu" ++ " from " ++ "Chess Club")) ∧
      db'.activities = initDB.activities ∧
      db'.participants = initDB.participants.eraseP
        (fun p => p.activity_id == 1 && p.email == "michael@mergington.edu") ∧
      (db'.activityParticipants 1).length + 1
        = (initDB.activityParticipants 1).length ∧
      db'.participants.countP
        (fun p => p.activity_id == 1 && p.email == "michael@mergington.edu") = 0 ∧
      ∀ p ∈ initDB.participants,
        (p.activity_id == 1 && p.email == "michael@mergington.edu") = false →
          p ∈ db'.participants :=
  claim_C4 initDB "Chess Club" "michael@mergington.edu"
    ⟨1, "Chess Club", "Learn strategies and compete in chess tournaments",
      "Fridays, 3:30 PM - 5:00 PM", 12⟩
    (by decide) (by decide)

/-- Witness for C5: unregistering an email never signed up for "Chess Club". -/
theorem claim_C5_witness :
    unregister_from_activity initDB "Chess Club" "zoe@mergington.edu"
      = (initDB, Except.error ⟨400, "Student is not signed up for this activity"⟩) :=
  claim_C5 initDB "Chess Club" "zoe@mergington.edu"
    ⟨1, "Chess Club", "Learn strategies and compete in chess tournaments",
      "Fridays, 3:30 PM - 5:00 PM", 12⟩
    (by decide) (by decide)

/-- Witness for C6: both operations against an activity name absent from the
seeded state. -/
theorem claim_C6_witness :
    signup_for_activity initDB "Knitting Club" "zoe@mergington.edu"
      = (initDB, Except.error ⟨404, "Activity not found"⟩) ∧
    unregister_from_activity initDB "Knitting Club" "zoe@mergington.edu"
      = (initDB, Except.error ⟨404, "Activity not found"⟩) :=
  claim_C6 initDB "Knitting Club" "zoe@mergington.edu" (by decide)

/-- The listing expected right after seeding a fresh store: the nine seeded
names in order, each with its seeded description, schedule, capacity, and
two participant emails. -/
def seededListing : List (String × ActivityInfo) :=
  [("Chess Club",
    ⟨"Learn strategies and compete in chess tournaments",
     "Fridays, 3:30 PM - 5:00 PM", 12,
     ["michael@mergington.edu", "daniel@mergington.edu"]⟩),
   ("Programming Class",
    ⟨"Learn programming fundamentals and build software projects",
     "Tuesdays and Thursdays, 3:30 PM - 4:30 PM", 20,
     ["emma@mergington.edu", "sophia@mergington.edu"]⟩),
   ("Gym Class",
    ⟨"Physical education and sports activities",
     "Mondays, Wednesdays, Fridays, 2:00 PM - 3:00 PM", 30,
     ["john@mergington.edu", "olivia@mergington.edu"]⟩),
   ("Soccer Team",
    ⟨"Join the school soccer team and compete in matches",
     "Tuesdays and Thursdays, 4:00 PM - 5:30 PM", 22,
     ["liam@mergington.edu", "noah@mergington.edu"]⟩),
   ("Basketball Team",
    ⟨"Practice and play basketball with the school team",
     "Wednesdays and Fridays, 3:30 PM - 5:00 PM", 15,
     ["ava@mergington.edu", "mia@mergington.edu"]⟩),
   ("Art Club",
    ⟨"Explore your creativity through painting and drawing",
     "Thursdays, 3:30 PM - 5:00 PM", 15,
     ["amelia@mergington.edu", "harper@mergington.edu"]⟩),
   ("Drama Club",
    ⟨"Act, direct, and produce plays and performances",
     "Mondays and Wednesdays, 4:00 PM - 5:30 PM", 20,
     ["ella@mergington.edu", "scarlett@mergington.edu"]⟩),
   ("Math Club",
    ⟨"Solve challenging problems and participate in math competitions",
     "Tuesdays, 3:30 PM - 4:30 PM", 10,
     ["james@mergington.edu", "benjamin@mergington.edu"]⟩),
   ("Debate Team",
    ⟨"Develop public speaking and argumentation skills",
     "Fridays, 4:00 PM - 5:30 PM", 12,
     ["charlotte@mergington.edu", "henry@mergington.edu"]⟩)]

/-- C7: seeding a store whose tables are empty (a Participant row cannot
outlive its Activity, so an empty Activity table means an empty Participant
table) populates exactly the nine sample activities, so that the listing
returns exactly the nine seeded names, each mapped to its seeded
description, schedule, capacity, and participant emails; seeding a store
whose Activity table is non-empty changes nothing. -/
theorem claim_C7 :
    (∀ db : DB, db.activities = [] → db.participants = [] →
        get_activities (seed_data db) = seededListing) ∧
    (∀ db : DB, db.activities ≠ [] → seed_data db = db) := by
  constructor
  · intro db h1 h2
    obtain ⟨acts, parts⟩ := db
    have h1' : acts = [] := h1
    have h2' : parts = [] := h2
    subst h1'
    subst h2'
    decide
  · intro db h
    have hne : db.activities.isEmpty = false := by
      cases hact : db.activities
      · exact absurd hact h
      · rfl
    simp [seed_data, hne]

/-- Witness for C7: the literal empty store, and the already-seeded store. -/
theorem claim_C7_witness :
    get_activities (seed_data ⟨[], []⟩) = seededListing ∧
    seed_data initDB = initDB :=
  ⟨claim_C7.1 ⟨[], []⟩ rfl rfl, claim_C7.2 initDB (by decide)⟩

/-! ### Invariants of reachable states -/

lemma mk_activities (acts : List Activity) (ps : List Participant) :
    (DB.mk acts ps).activities = acts := rfl

lemma mk_activityParticipants (acts : List Activity) (ps : List Participant) (aid : Nat) :
    (DB.mk acts ps).activityParticipants aid
      = ps.filter (fun p => p.activity_id == aid) := rfl

/-- No two Participant rows share the same (activity_id, email) pair. -/
def PairsUnique (db : DB) : Prop :=
  (db.participants.map (fun p => (p.activity_id, p.email))).Nodup

lemma signup_preserves_pairsUnique (db : DB) (n e : String)
    (h : PairsUnique db) : PairsUnique (signup_for_activity db n e).1 := by
  rcases signup_shape db n e with heq | ⟨a, ha, hany, hlt, heq⟩
  · rw [heq]; exact h
  · rw [heq]
    unfold PairsUnique at h ⊢
    rw [List.map_append, List.nodup_append]
    refine ⟨h, by simp, ?_⟩
    intro x hx hx'
    simp only [List.map_cons, List.map_nil, List.mem_singleton] at hx'
    subst hx'
    rcases List.mem_map.1 hx with ⟨p, hp, hpe⟩
    injection hpe with h1 h2
    have hpmem : p ∈ db.activityParticipants a.id := by
      simp [DB.activityParticipants, List.mem_filter, hp, h1]
    rw [List.any_eq_false] at hany
    exact hany p hpmem (by simp [h2])

lemma unregister_preserves_pairsUnique (db : DB) (n e : String)
    (h : PairsUnique db) : PairsUnique (unregister_from_activity db n e).1 := by
  rcases unregister_shape db n e with heq | ⟨a, ha, heq⟩
  · rw [heq]; exact h
  · rw [heq]
    exact List.Nodup.sublist
      ((List.eraseP_sublist db.participants).map (fun p => (p.activity_id, p.email))) h

/-- C8: in every state reachable from the seeded initial state by the API
operations, the (activity_id, email) pair of every Participant row is
unique. -/
theorem claim_C8 (db : DB) (h : Reachable db) : PairsUnique db := by
  induction h with
  | seeded => simp only [PairsUnique]; decide
  | signup db' n e hr ih => exact signup_preserves_pairsUnique db' n e ih
  | unregister db' n e hr ih => exact unregister_preserves_pairsUnique db' n e ih

/-- Witness for C8: the seeded initial state is reachable. -/
theorem claim_C8_witness : PairsUnique initDB :=
  claim_C8 initDB Reachable.seeded

lemma reachable_activities (db : DB) (h : Reachable db) :
    db.activities = initDB.activities := by
  induction h with
  | seeded => rfl
  | signup db' n e hr ih => rw [signup_fst_activities]; exact ih
  | unregister db' n e hr ih => rw [unregister_fst_activities]; exact ih

/-- Every activity's roster size is within its capacity. -/
def CapacityOK (db : DB) : Prop :=
  ∀ a ∈ db.activities, (db.activityParticipants a.id).length ≤ a.max_participants

lemma signup_preserves_capacity (db : DB) (n e : String)
    (hids : (db.activities.map Activity.id).Nodup)
    (h : CapacityOK db) : CapacityOK (signup_for_activity db n e).1 := by
  rcases signup_shape db n e with heq | ⟨a, ha, hany, hlt, heq⟩
  · rw [heq]; exact h
  · rw [heq]
    intro b hb
    rw [mk_activities] at hb
    rw [mk_activityParticipants, List.filter_append]
    by_cases hid : b.id = a.id
    · have hba : b = a :=
        List.inj_on_of_nodup_map hids hb (List.mem_of_find?_eq_some ha) hid
      subst hba
      have hsingle :
          List.filter (fun p => p.activity_id == b.id)
            [(⟨freshParticipantId db, e, b.id⟩ : Participant)]
            = [⟨freshParticipantId db, e, b.id⟩] := by
        simp
      rw [hsingle, List.length_append]
      have hlt' :
          (db.participants.filter (fun p => p.activity_id == b.id)).length
            < b.max_participants := hlt
      simp only [List.length_cons, List.length_nil]
      omega
    · have hnone :
          List.filter (fun p => p.activity_id == b.id)
            [(⟨freshParticipantId db, e, a.id⟩ : Participant)] = [] := by
        have : a.id ≠ b.id := fun hc => hid hc.symm
        simp [this]
      rw [hnone, List.append_nil]
      exact h b hb

lemma unregister_preserves_capacity (db : DB) (n e : String)
    (h : CapacityOK db) : CapacityOK (unregister_from_activity db n e).1 := by
  rcases unregister_shape db n e with heq | ⟨a, ha, heq⟩
  · rw [heq]; exact h
  · rw [heq]
    intro b hb
    rw [mk_activities] at hb
    rw [mk_activityParticipants]
    refine le_trans (List.Sublist.length_le ?_) (h b hb)
    exact (List.eraseP_sublist db.participants).filter _

/-- C9: in every state reachable from the seeded initial state by the API
operations, every activity's participant count is at most its
max_participants. -/
theorem claim_C9 (db : DB) (h : Reachable db) : CapacityOK db := by
  induction h with
  | seeded => simp only [CapacityOK]; decide
  | signup db' n e hr ih =>
    have hids : (db'.activities.map Activity.id).Nodup := by
      rw [reachable_activities db' hr]; decide
    exact signup_preserves_capacity db' n e hids ih
  | unregister db' n e hr ih => exact unregister_preserves_capacity db' n e ih

/-- Witness for C9: the seeded initial state is reachable. -/
theorem claim_C9_witness : CapacityOK initDB :=
  claim_C9 initDB Reachable.seeded

/-! ### Frame property of the two mutating handlers -/

/-- The request touched neither the Activity table nor the roster of any
activity not named `n`. -/
def FramePreserved (db db' : DB) (n : String) : Prop :=
  db'.activities = db.activities ∧
  ∀ b ∈ db.activities, b.name ≠ n →
    db'.activityParticipants b.id = db.activityParticipants b.id

/-- C10: signup and unregister — succeeding or failing — leave every
Activity row unchanged and the participant set of every activity other
than the one named `n` unchanged (activity ids being unique per the data
model). -/
theorem claim_C10 (db : DB) (n e : String)
    (hids : (db.activities.map Activity.id).Nodup) :
    FramePreserved db (signup_for_activity db n e).1 n ∧
    FramePreserved db (unregister_from_activity db n e).1 n := by
  constructor
  · rcases signup_shape db n e with heq | ⟨a, ha, hany, hlt, heq⟩
    · rw [heq]; exact ⟨rfl, fun b _ _ => rfl⟩
    · rw [heq]
      refine ⟨rfl, ?_⟩
      intro b hb hbn
      rw [mk_activityParticipants, List.filter_append]
      have haname : a.name = n := by simpa using List.find?_some ha
      have hne : b ≠ a := fun hc => hbn (by rw [hc]; exact haname)
      have hid : a.id ≠ b.id := by
        intro hc
        exact hne (List.inj_on_of_nodup_map hids hb (List.mem_of_find?_eq_some ha) hc.symm)
      have hnone :
          List.filter (fun p => p.activity_id == b.id)
            [(⟨freshParticipantId db, e, a.id⟩ : Participant)] = [] := by
        simp [hid]
      rw [hnone, List.append_nil]
      rfl
  · rcases unregister_shape db n e with heq | ⟨a, ha, heq⟩
    · rw [heq]; exact ⟨rfl, fun b _ _ => rfl⟩
    · rw [heq]
      refine ⟨rfl, ?_⟩
      intro b hb hbn
      rw [mk_activityParticipants]
      have haname : a.name = n := by simpa using List.find?_some ha
      have hne : b ≠ a := fun hc => hbn (by rw [hc]; exact haname)
      have hid : a.id ≠ b.id := by
        intro hc
        exact hne (List.inj_on_of_nodup_map hids hb (List.mem_of_find?_eq_some ha) hc.symm)
      rw [filter_eraseP_of_disjoint]
      · rfl
      · intro x hx
        rw [Bool.and_eq_true, beq_iff_eq, beq_iff_eq] at hx
        simp [hx.1, hid]

/-- Witness for C10: both handlers against "Chess Club" in the seeded
state. -/
theorem claim_C10_witness :
    FramePreserved initDB
      (signup_for_activity initDB "Chess Club" "zoe@mergington.edu").1 "Chess Club" ∧
    FramePreserved initDB
      (unregister_from_activity initDB "Chess Club" "zoe@mergington.edu").1 "Chess Club" :=
  claim_C10 initDB "Chess Club" "zoe@mergington.edu" (by decide)

end Mergington
